import Mathlib

/-!
Shallow embedding of the http-service crate (src/lib.rs): the `Body` type
wrapping an asynchronous reader, its constructors (`empty`, `from_reader`,
`From<Vec<u8>>`, `From<Box<R>>`), its `Read` implementation (`poll_read`),
its `Debug` formatting, and the blanket `HttpService` implementation for
plain functions. Bytes are modelled as `Nat`, buffers as `List Nat`, and a
`poll_read` call as a step from a reader state to a result plus next state.
-/

/-- Result of one poll: ready with a value, or a suspension. This mirrors
std task Poll with its two constructors. -/
inductive Poll (α : Type) where
  | ready : α → Poll α
  | pending : Poll α

/-- An opaque I/O error value (std io Error), carried through unchanged. -/
structure IOError where
  code : Nat
  msg : String

/-- The waker context passed to poll_read (std task Context), opaque here
and never inspected by any reader of this crate. -/
abbrev Ctx := Nat

/-- Outcome of a poll_read call: the bytes written into the destination
buffer (the count is their number, zero meaning end-of-stream), or an I/O
error, or a suspension. -/
abbrev ReadResult := Poll (Except IOError (List Nat))

/-- The asynchronous Read capability (async_std io Read), embedded as a
state type σ with a poll_read step: given the current state, a context and
the destination buffer capacity, produce a result and the next state. -/
structure Reader (σ : Type) where
  pollRead : σ → Ctx → Nat → ReadResult × σ

/-- The raw body of an http request or response: owns exactly one reader,
the single field of the source struct. -/
structure Body (σ : Type) where
  reader : Reader σ
  state : σ

/-- The Read impl for Body: poll_read delegates to the wrapped reader,
returning its result unchanged and the body with the reader's new state. -/
def Body.pollRead {σ : Type} (b : Body σ) (cx : Ctx) (cap : Nat) :
    ReadResult × Body σ :=
  ((b.reader.pollRead b.state cx cap).1,
   { b with state := (b.reader.pollRead b.state cx cap).2 })

/-- async_std io empty: every poll_read immediately returns Ready(Ok(0)). -/
def emptyReader : Reader Unit :=
  ⟨fun s _ _ => (Poll.ready (Except.ok []), s)⟩

/-- Body::empty: wraps io empty. -/
def Body.empty : Body Unit :=
  { reader := emptyReader, state := () }

/-- Body::from_reader: wraps an arbitrary reader, transferring ownership. -/
def Body.fromReader {σ : Type} (r : Reader σ) (s : σ) : Body σ :=
  { reader := r, state := s }

/-- io Cursor over a byte vector: the state is the position; a read copies
min(capacity, remaining) bytes starting at the position and advances the
position by the number of bytes copied. Never errs, never suspends. -/
def cursorReader (v : List Nat) : Reader Nat :=
  ⟨fun pos _ cap =>
    (Poll.ready (Except.ok ((v.drop pos).take cap)),
     pos + ((v.drop pos).take cap).length)⟩

/-- The From conversion for byte vectors: wraps the buffer in a cursor
starting at position zero. -/
def Body.fromVec (v : List Nat) : Body Nat :=
  { reader := cursorReader v, state := 0 }

/-- The From conversion for an already-boxed reader: a direct re-wrap of
the given reader and its state, copying nothing. -/
def Body.fromBox {σ : Type} (r : Reader σ) (s : σ) : Body σ :=
  { reader := r, state := s }

/-- The Debug impl for Body: renders the fixed placeholder text, never
touching the wrapped reader or its state. -/
def Body.debugFmt {σ : Type} (_ : Body σ) : String :=
  "Body \x7b reader: \"<hidden>\" \x7d"

/-- An HTTP request envelope with a streaming body. -/
structure Request (σ : Type) where
  method : String
  uri : String
  headers : List (String × String)
  body : Body σ

/-- An HTTP response envelope with a streaming body. -/
structure Response (σ : Type) where
  status : Nat
  headers : List (String × String)
  body : Body σ

/-- The blanket HttpService impl for any function from requests to futures:
respond takes shared access to the service (modelled by threading the
function through unchanged) and returns the computation f(req) itself. -/
def respond {σ Fut : Type} (f : Request σ → Fut) (req : Request σ) :
    (Request σ → Fut) × Fut :=
  (f, f req)

/-- A strictly sequential run of poll_read calls on one body: each call
observes the state left by the previous call; yields every result in order
together with the final body. -/
def pollReads {σ : Type} : Body σ → List (Ctx × Nat) → List ReadResult × Body σ
  | b, [] => ([], b)
  | b, c :: rest =>
      ((b.pollRead c.1 c.2).1 :: (pollReads (b.pollRead c.1 c.2).2 rest).1,
       (pollReads (b.pollRead c.1 c.2).2 rest).2)

/-- Reading a body to exhaustion: repeatedly poll_read with the given
capacity, concatenating the returned chunks, stopping at the first empty
read (end-of-stream) or at a suspension or error; fuel bounds the number
of reads. -/
def drainLoop {σ : Type} : Nat → Body σ → Ctx → Nat → List Nat × Body σ
  | 0, b, _, _ => ([], b)
  | fuel + 1, b, cx, cap =>
      match b.pollRead cx cap with
      | (Poll.ready (Except.ok chunk), b₁) =>
          if chunk.isEmpty then ([], b₁)
          else (chunk ++ (drainLoop fuel b₁ cx cap).1,
                (drainLoop fuel b₁ cx cap).2)
      | (Poll.ready (Except.error _), b₁) => ([], b₁)
      | (Poll.pending, b₁) => ([], b₁)

/-- A concrete request used to instantiate the service theorems. -/
def sampleRequest : Request Unit :=
  { method := "GET", uri := "/", headers := [], body := Body.empty }

/-- A concrete function-based service that always fails with error 7. -/
def sampleService : Request Unit → Except Nat (Response Unit) :=
  fun _ => Except.error 7

/-- Every run of reads on the empty body yields only zero-byte successes
and leaves the body unchanged. -/
theorem pollReads_empty_eq (calls : List (Ctx × Nat)) :
    pollReads Body.empty calls
      = (List.replicate calls.length (Poll.ready (Except.ok [])), Body.empty) := by
  induction calls with
  | nil => rfl
  | cons c rest ih =>
      have h1 : Body.empty.pollRead c.1 c.2 = (Poll.ready (Except.ok []), Body.empty) := rfl
      simp [pollReads, h1, ih, List.replicate_succ]

/-- Every run of reads on a cursor over the empty buffer yields only
zero-byte successes and leaves the position unchanged. -/
theorem pollReads_nil_cursor (pos : Nat) (calls : List (Ctx × Nat)) :
    pollReads (Body.mk (cursorReader []) pos) calls
      = (List.replicate calls.length (Poll.ready (Except.ok [])),
         Body.mk (cursorReader []) pos) := by
  induction calls generalizing pos with
  | nil => rfl
  | cons c rest ih =>
      have h1 : (Body.mk (cursorReader []) pos).pollRead c.1 c.2
          = (Poll.ready (Except.ok []), Body.mk (cursorReader []) pos) := by
        simp [Body.pollRead, cursorReader]
      simp [pollReads, h1, ih pos, List.replicate_succ]

/-- Across any run of reads on a cursor body, the position never
decreases. -/
theorem pollReads_cursor_state_le (v : List Nat) (calls : List (Ctx × Nat)) :
    ∀ pos : Nat, pos ≤ ((pollReads (Body.mk (cursorReader v) pos) calls).2).state := by
  induction calls with
  | nil => intro pos; exact Nat.le_refl pos
  | cons c rest ih =>
      intro pos
      have h1 : (Body.mk (cursorReader v) pos).pollRead c.1 c.2
          = (Poll.ready (Except.ok ((v.drop pos).take c.2)),
             Body.mk (cursorReader v) (pos + ((v.drop pos).take c.2).length)) := rfl
      simp only [pollReads, h1]
      exact Nat.le_trans (Nat.le_add_right _ _)
        (ih (pos + ((v.drop pos).take c.2).length))

/-- Draining a cursor body yields exactly the bytes from the current
position onward and ends with the position at the end of the buffer,
provided the capacity is positive and the fuel covers the remainder. -/
theorem drainLoop_cursor (cx cap : Nat) (hcap : 1 ≤ cap) :
    ∀ (fuel : Nat) (v : List Nat) (pos : Nat), v.length - pos ≤ fuel →
      drainLoop fuel (Body.mk (cursorReader v) pos) cx cap
        = (v.drop pos, Body.mk (cursorReader v) (max pos v.length)) := by
  intro fuel
  induction fuel with
  | zero =>
      intro v pos h
      have hle : v.length ≤ pos := by omega
      have hdrop : v.drop pos = [] := List.drop_eq_nil_of_le hle
      have hmax : max pos v.length = pos := Nat.max_eq_left hle
      simp [drainLoop, hdrop, hmax]
  | succ fuel ih =>
      intro v pos h
      cases hdp : v.drop pos with
      | nil =>
          have hle : v.length ≤ pos := by
            rcases Nat.lt_or_ge pos v.length with h1 | h1
            · have hne : v.drop pos ≠ [] := by
                intro hc
                have := List.length_drop pos v
                rw [hc] at this
                simp at this
                omega
              exact absurd hdp hne
            · exact h1
          have hmax : max pos v.length = pos := Nat.max_eq_left hle
          simp [drainLoop, Body.pollRead, cursorReader, hdp, hmax]
          omega
      | cons a t =>
          obtain ⟨k, rfl⟩ : ∃ k, cap = k + 1 :=
            ⟨cap - 1, (Nat.succ_pred_eq_of_pos hcap).symm⟩
          have hpos : pos < v.length := by
            rcases Nat.lt_or_ge pos v.length with h1 | h1
            · exact h1
            · rw [List.drop_eq_nil_of_le h1] at hdp; simp at hdp
          have hlen1 : 1 ≤ ((v.drop pos).take (k + 1)).length := by
            rw [hdp]; simp
          have hlenle : ((v.drop pos).take (k + 1)).length ≤ v.length - pos := by
            have h2 := List.length_take (k + 1) (v.drop pos)
            have h3 := List.length_drop pos v
            omega
          have hfuel : v.length - (pos + ((v.drop pos).take (k + 1)).length) ≤ fuel := by
            omega
          have hrec := ih v (pos + ((v.drop pos).take (k + 1)).length) hfuel
          have happend :
              (v.drop pos).take (k + 1)
                ++ v.drop (pos + ((v.drop pos).take (k + 1)).length)
                = v.drop pos := by
            have h2 : v.drop (pos + ((v.drop pos).take (k + 1)).length)
                = (v.drop pos).drop ((v.drop pos).take (k + 1)).length := by
              rw [List.drop_drop, Nat.add_comm]
            rw [h2]
            rcases Nat.le_total (k + 1) (v.drop pos).length with hc | hc
            · rw [List.length_take, Nat.min_eq_left hc, List.take_append_drop]
            · rw [List.take_of_length_le hc, List.drop_length, List.append_nil]
          have hmaxeq : max (pos + ((v.drop pos).take (k + 1)).length) v.length
              = max pos v.length := by
            have hb : pos + ((v.drop pos).take (k + 1)).length ≤ v.length := by omega
            rw [Nat.max_eq_right hb, Nat.max_eq_right (Nat.le_of_lt hpos)]
          have hne : ((v.drop pos).take (k + 1)).isEmpty = false := by
            rw [hdp]; rfl
          have hstep : drainLoop (fuel + 1) (Body.mk (cursorReader v) pos) cx (k + 1)
              = if ((v.drop pos).take (k + 1)).isEmpty
                then ([], Body.mk (cursorReader v)
                        (pos + ((v.drop pos).take (k + 1)).length))
                else ((v.drop pos).take (k + 1)
                        ++ (drainLoop fuel
                              (Body.mk (cursorReader v)
                                (pos + ((v.drop pos).take (k + 1)).length))
                              cx (k + 1)).1,
                      (drainLoop fuel
                          (Body.mk (cursorReader v)
                            (pos + ((v.drop pos).take (k + 1)).length))
                          cx (k + 1)).2) := rfl
          rw [hstep, if_neg (by rw [hne]; simp), hrec]
          simp only [Prod.mk.injEq]
          exact ⟨happend.trans hdp, by rw [hmaxeq]⟩

/-- C1: reading the Body built from a byte buffer B to exhaustion yields
exactly the bytes of B in order, the next read then returns a count of
zero leaving the body unchanged, and every read a cursor body can perform
returns Ready(Ok(..)), never an error and never a suspension. -/
theorem fromVec_read_to_exhaustion (v : List Nat) (cx cap : Nat) (hcap : 1 ≤ cap) :
    (drainLoop (v.length + 1) (Body.fromVec v) cx cap).1 = v
    ∧ ((drainLoop (v.length + 1) (Body.fromVec v) cx cap).2).pollRead cx cap
        = (Poll.ready (Except.ok []),
           (drainLoop (v.length + 1) (Body.fromVec v) cx cap).2)
    ∧ ∀ pos : Nat, ∃ chunk : List Nat,
        ((Body.mk (cursorReader v) pos).pollRead cx cap).1
          = Poll.ready (Except.ok chunk) := by
  have h0 : Body.fromVec v = Body.mk (cursorReader v) 0 := rfl
  have hd := drainLoop_cursor cx cap hcap (v.length + 1) v 0 (by omega)
  refine ⟨?_, ?_, ?_⟩
  · rw [h0, hd]
    simp
  · rw [h0, hd]
    simp [Body.pollRead, cursorReader, List.drop_length,
      Nat.max_eq_right (Nat.zero_le v.length)]
  · intro pos
    exact ⟨(v.drop pos).take cap, rfl⟩

/-- Witness for C1 at the buffer [72, 105] with capacity 2. -/
theorem fromVec_read_to_exhaustion_witness :
    1 ≤ 2 ∧
    ((drainLoop (([72, 105] : List Nat).length + 1) (Body.fromVec [72, 105]) 0 2).1
        = [72, 105]
     ∧ ((drainLoop (([72, 105] : List Nat).length + 1) (Body.fromVec [72, 105]) 0 2).2).pollRead 0 2
         = (Poll.ready (Except.ok []),
            (drainLoop (([72, 105] : List Nat).length + 1) (Body.fromVec [72, 105]) 0 2).2)
     ∧ ∀ pos : Nat, ∃ chunk : List Nat,
         ((Body.mk (cursorReader [72, 105]) pos).pollRead 0 2).1
           = Poll.ready (Except.ok chunk)) :=
  ⟨by decide, fromVec_read_to_exhaustion [72, 105] 0 2 (by decide)⟩

/-- C2: for any function-based service f, respond returns exactly the
computation f(req), and resolving the returned computation gives the same
Result value, on the success and on the error path alike, as resolving a
direct call of f: the adapter introduces no transformation. -/
theorem respond_is_direct_call {σ Fut : Type} (f : Request σ → Fut) (req : Request σ) :
    (respond f req).2 = f req
    ∧ ∀ (E σ₂ : Type) (resolve : Fut → Except E (Response σ₂)),
        resolve (respond f req).2 = resolve (f req) :=
  ⟨rfl, fun _ _ _ => rfl⟩

/-- C3: every read on the empty body, first and all subsequent ones for
any run of calls with any contexts and capacities, returns Ok with a count
of zero bytes and never an error, and the body is left unchanged. -/
theorem empty_reads_always_zero (calls : List (Ctx × Nat)) :
    (pollReads Body.empty calls).1
        = List.replicate calls.length (Poll.ready (Except.ok []))
    ∧ (pollReads Body.empty calls).2 = Body.empty := by
  have h := pollReads_empty_eq calls
  exact ⟨by rw [h], by rw [h]⟩

/-- C4: on the Body built from [0x48, 0x69], a first read with a 10-byte
destination returns the two bytes 0x48, 0x69, and a second read returns a
count of zero. -/
theorem fromVec_hi_scenario :
    ((Body.fromVec [0x48, 0x69]).pollRead 0 10).1
        = Poll.ready (Except.ok [0x48, 0x69])
    ∧ ((((Body.fromVec [0x48, 0x69]).pollRead 0 10).2).pollRead 0 10).1
        = Poll.ready (Except.ok []) :=
  ⟨rfl, rfl⟩

/-- C5: Body is a transparent pass-through: for every underlying reader,
state, context and capacity, poll_read on the Body wrapping the reader
returns exactly what the reader itself returns, the same counts, the same
suspensions and the same errors, with the same successor state; and the
boxed-reader conversion is a direct re-wrap. -/
theorem fromBox_passthrough {σ : Type} (r : Reader σ) (s : σ) (cx cap : Nat) :
    (Body.fromBox r s).pollRead cx cap
        = ((r.pollRead s cx cap).1, Body.mk r (r.pollRead s cx cap).2)
    ∧ Body.fromBox r s = Body.mk r s :=
  ⟨rfl, rfl⟩

/-- C6: the Debug rendering of any two Bodies, over any reader types and
any internal states, is the same opaque placeholder text: the output is
independent of the wrapped reader. -/
theorem debugFmt_uniform {σ₁ σ₂ : Type} (b₁ : Body σ₁) (b₂ : Body σ₂) :
    Body.debugFmt b₁ = Body.debugFmt b₂ :=
  rfl

/-- C7: for a Body built from a byte buffer, a single read advances the
position by exactly the number of bytes yielded, and across any sequence
of reads the position never decreases; each call in the sequence observes
the state left by the previous call by construction of pollReads. -/
theorem fromVec_position_monotone (v : List Nat) (pos cx cap : Nat) :
    Body.fromVec v = Body.mk (cursorReader v) 0
    ∧ (Body.mk (cursorReader v) pos).pollRead cx cap
        = (Poll.ready (Except.ok ((v.drop pos).take cap)),
           Body.mk (cursorReader v) (pos + ((v.drop pos).take cap).length))
    ∧ ∀ calls : List (Ctx × Nat),
        pos ≤ ((pollReads (Body.mk (cursorReader v) pos) calls).2).state :=
  ⟨rfl, rfl, fun calls => pollReads_cursor_state_le v calls pos⟩

/-- C9: the Body built from the empty buffer is read-equivalent to
Body::empty: for any run of calls, both produce the same results, all of
them zero-byte successes. -/
theorem fromVec_nil_equiv_empty (calls : List (Ctx × Nat)) :
    (pollReads (Body.fromVec []) calls).1 = (pollReads Body.empty calls).1
    ∧ (pollReads (Body.fromVec []) calls).1
        = List.replicate calls.length (Poll.ready (Except.ok [])) := by
  have h0 : Body.fromVec [] = Body.mk (cursorReader []) 0 := rfl
  have h1 := pollReads_nil_cursor 0 calls
  have h2 := pollReads_empty_eq calls
  constructor
  · rw [h0, h1, h2]
  · rw [h0, h1]

/-- C10: respond on a function-based service takes only shared access, so
the service after the call is the same value as before, and two respond
calls with equal requests return equal computations. -/
theorem respond_frame {σ Fut : Type} (f : Request σ → Fut)
    (req₁ req₂ : Request σ) (h : req₁ = req₂) :
    (respond f req₁).1 = f ∧ (respond f req₁).2 = (respond f req₂).2 := by
  subst h
  exact ⟨rfl, rfl⟩

/-- Witness for C10 at a concrete service and request. -/
theorem respond_frame_witness :
    sampleRequest = sampleRequest
    ∧ ((respond sampleService sampleRequest).1 = sampleService
       ∧ (respond sampleService sampleRequest).2
           = (respond sampleService sampleRequest).2) :=
  ⟨rfl, respond_frame sampleService sampleRequest sampleRequest rfl⟩
